import Mathlib

/-!
Verification of the codex-loop CLI (src/cli.js) loop-controller core.

The definitions below are a shallow embedding of the loop-related logic of
src/cli.js: `parsePromise` (line 644), `firstLineSummary` (line 168),
`logIteration` (line 675) and the main iteration loop (lines 979-1049).
JavaScript strings are modelled as Lean `String` (lists of characters),
subprocess results as explicit environment functions, and fallible writes
as explicit success predicates.
-/

set_option maxRecDepth 4000

/-- The dollar character, used by the JS `String.replace` substitution rules. -/
def dollarChar : Char := Char.ofNat 36

/-- The backquote character (JS replacement pattern for the preceding text). -/
def backquoteChar : Char := Char.ofNat 96

/-- The single-quote character (JS replacement pattern for the following text). -/
def singleQuoteChar : Char := Char.ofNat 39

/-- The set of characters removed by JavaScript `String.prototype.trim`:
ECMAScript WhiteSpace plus LineTerminator code points. -/
def isJsWhitespace (c : Char) : Bool :=
  c ∈ ([9, 10, 11, 12, 13, 32, 0xA0, 0x1680, 0x2000, 0x2001, 0x2002, 0x2003,
        0x2004, 0x2005, 0x2006, 0x2007, 0x2008, 0x2009, 0x200A, 0x2028, 0x2029,
        0x202F, 0x205F, 0x3000, 0xFEFF].map Char.ofNat)

/-- JS `s.trim()` on a character list: drop leading and trailing whitespace. -/
def jsTrimL (l : List Char) : List Char :=
  ((l.dropWhile isJsWhitespace).reverse.dropWhile isJsWhitespace).reverse

/-- JS `s.trim().length === 0`, as used on `git status` output at
src/cli.js lines 1012 and 1019. -/
def trimIsEmpty (s : String) : Bool :=
  (jsTrimL s.data).isEmpty

/-- First-occurrence search: `splitFirst pat l = some (pre, post)` when
`l = pre ++ pat ++ post` at the leftmost occurrence of `pat`, mirroring the
scan performed by JS `String.prototype.indexOf` / `includes` / `replace`. -/
def splitFirst (pat : List Char) : List Char → Option (List Char × List Char)
  | [] => if pat = [] then some ([], []) else none
  | c :: rest =>
    if pat.isPrefixOf (c :: rest) then some ([], (c :: rest).drop pat.length)
    else
      match splitFirst pat rest with
      | some (pre, post) => some (c :: pre, post)
      | none => none

/-- JS `haystack.includes(needle)` (substring containment). -/
def jsIncludes (haystack needle : String) : Bool :=
  (splitFirst needle.data haystack.data).isSome

/-- src/cli.js lines 644-647:
`function parsePromise(output, key) { if (!output) return false;
 return output.includes(key + ": true"); }` -/
def parsePromise (output : String) (key : String) : Bool :=
  if output = "" then false else jsIncludes output (key ++ ": true")

/-- The loop-relevant slice of the resolved configuration (DEFAULT_CONFIG
merged with file/CLI overrides): `loop.*`, `commands.test`, `prompt.completionKey`,
`git.*` and `logging.commitLogs` fields of src/cli.js lines 9-65. -/
structure LoopConfig where
  maxLoops : Nat
  stopOnPromise : Bool
  stopOnTestsPass : Bool
  stopOnNoDiff : Bool
  ignoreUntrackedForNoDiff : Bool
  completionKey : String
  testCommand : String
  commitEachIteration : Bool
  stageAll : Bool
  allowEmptyCommit : Bool
  commitMessageTemplate : String
  commitLogs : Bool

/-- The external world of one run: per-iteration codex stdout and exit status
(`run(config.codex.path, ...)`), the exit status of the shell test command
(`none` models a `null` status: spawn failure or signal), and the stdout of
`git status` as a function of the argument list passed to git. -/
structure Env where
  output : Nat → String
  exitStatus : Nat → Option Int
  testStatus : Nat → Option Int
  status : Nat → List String → String

/-- Whether the test command is run at all: the guard of src/cli.js line 1002,
`config.loop.stopOnTestsPass && config.commands.test` (a string is truthy iff
non-empty). -/
def testsEvaluated (cfg : LoopConfig) : Bool :=
  cfg.stopOnTestsPass && !(cfg.testCommand == "")

/-- src/cli.js line 996: `config.loop.stopOnPromise && parsePromise(output,
config.prompt.completionKey)`. -/
def promiseSignal (cfg : LoopConfig) (env : Env) (i : Nat) : Bool :=
  cfg.stopOnPromise && parsePromise (env.output i) cfg.completionKey

/-- src/cli.js lines 1001-1005: `stopOnTests` starts false and is set to
`testResult.status === 0` only inside the guard. -/
def testsSignal (cfg : LoopConfig) (env : Env) (i : Nat) : Bool :=
  if testsEvaluated cfg then env.testStatus i == some 0 else false

/-- Modelled from the spec: the nullable `testsPassed` value of the
Stop-Condition Evaluator, `null` (here `none`) when the flag is disabled or
no test command is configured, otherwise `some` of "exit code is zero". -/
def specTestsPassed (cfg : LoopConfig) (env : Env) (i : Nat) : Option Bool :=
  if testsEvaluated cfg then some (env.testStatus i == some 0) else none

/-- src/cli.js lines 1009-1010: the argument list of the no-diff status query,
`['status', '--porcelain']` plus `-uno` when `ignoreUntrackedForNoDiff`. -/
def noDiffStatusArgs (cfg : LoopConfig) : List String :=
  ["status", "--porcelain"] ++ (if cfg.ignoreUntrackedForNoDiff then ["-uno"] else [])

/-- src/cli.js lines 1016-1017: the argument list of the status query gating
the per-iteration commit; a separate query from the no-diff one. -/
def commitStatusArgs (cfg : LoopConfig) : List String :=
  ["status", "--porcelain"] ++ (if cfg.ignoreUntrackedForNoDiff then ["-uno"] else [])

/-- src/cli.js lines 1007-1013: `stopOnNoDiff` is false unless the condition
is enabled, in which case it is `status.stdout.trim().length === 0`. -/
def noDiffSignal (cfg : LoopConfig) (env : Env) (i : Nat) : Bool :=
  if cfg.stopOnNoDiff then trimIsEmpty (env.status i (noDiffStatusArgs cfg)) else false

/-- src/cli.js line 1019: `status.stdout.trim().length > 0 || config.git.allowEmptyCommit`. -/
def commitGate (cfg : LoopConfig) (env : Env) (i : Nat) : Bool :=
  !(trimIsEmpty (env.status i (commitStatusArgs cfg))) || cfg.allowEmptyCommit

/-- src/cli.js line 1048: `if (promiseFound || stopOnTests || stopOnNoDiff) break;`. -/
def iterStops (cfg : LoopConfig) (env : Env) (i : Nat) : Bool :=
  promiseSignal cfg env i || testsSignal cfg env i || noDiffSignal cfg env i

/-- How a run of the loop ends: the `break` at line 1048 (a stop condition
fired) versus normal exhaustion of the `for` loop at line 979. -/
inductive RunOutcome where
  | completed
  | iterationLimit
deriving DecidableEq

/-- The loop of src/cli.js lines 979-1049 from iteration `i` with `r`
iterations remaining: returns how many iterations (agent invocations) were
performed and how the loop ended. -/
def runLoopFrom (cfg : LoopConfig) (env : Env) : Nat → Nat → Nat × RunOutcome
  | _, 0 => (0, RunOutcome.iterationLimit)
  | i, r + 1 =>
    if iterStops cfg env i then (1, RunOutcome.completed)
    else
      let p := runLoopFrom cfg env (i + 1) r
      (p.1 + 1, p.2)

/-- `for (let i = 1; i <= config.loop.maxLoops; i += 1)`, src/cli.js line 979. -/
def runLoop (cfg : LoopConfig) (env : Env) : Nat × RunOutcome :=
  runLoopFrom cfg env 1 cfg.maxLoops

/-- The externally observable side effects of one loop iteration, in order. -/
inductive LoopEvent where
  | invokeAgent (i : Nat)
  | captureDiff (i : Nat)
  | checkpoint (i : Nat)
  | runTests (i : Nat)
  | queryNoDiff (i : Nat)
  | queryCommitStatus (i : Nat)
  | stageFiles (i : Nat)
  | commitRepo (i : Nat)
  | persistState (i : Nat)
deriving DecidableEq

/-- The side-effect trace of iteration `i` of the loop body, src/cli.js lines
980-1046, in source order: invoke codex (981), capture `git diff` (988),
`logIteration` checkpoint (990), optional test run (1003), optional no-diff
status query (1011), optional commit-path status query plus stage and commit
(1016-1032), and the `writeState` call (1039). -/
def iterTrace (cfg : LoopConfig) (env : Env) (i : Nat) : List LoopEvent :=
  [LoopEvent.invokeAgent i, LoopEvent.captureDiff i, LoopEvent.checkpoint i]
    ++ (if testsEvaluated cfg then [LoopEvent.runTests i] else [])
    ++ (if cfg.stopOnNoDiff then [LoopEvent.queryNoDiff i] else [])
    ++ (if cfg.commitEachIteration then
          LoopEvent.queryCommitStatus i ::
            (if commitGate cfg env i then [LoopEvent.stageFiles i, LoopEvent.commitRepo i]
             else [])
        else [])
    ++ [LoopEvent.persistState i]

/-- The four artifacts `logIteration` (src/cli.js lines 675-682) may write:
prompt.md, output.txt, diff.patch, meta.json. -/
inductive Artifact where
  | promptA
  | outputA
  | diffA
  | metaA
deriving DecidableEq

/-- The `data` argument of `logIteration`; empty strings model falsy (absent)
fields, `hasMeta` models presence of the `meta` object. -/
structure IterData where
  prompt : String
  output : String
  diff : String
  hasMeta : Bool

/-- Which artifact writes `logIteration` attempts, in source order: each field
is written only if truthy (`if (data.prompt) ...` etc., lines 678-681). -/
def attemptedArtifacts (d : IterData) : List Artifact :=
  (if d.prompt == "" then [] else [Artifact.promptA])
    ++ (if d.output == "" then [] else [Artifact.outputA])
    ++ (if d.diff == "" then [] else [Artifact.diffA])
    ++ (if d.hasMeta then [Artifact.metaA] else [])

/-- Sequential `fs.writeFileSync` calls: `ok a` tells whether writing artifact
`a` succeeds. Returns the artifacts actually written and the first thrown
error (`none` if the function returns normally). A throw skips every later
write: `logIteration` has no try/catch. -/
def writeAll (ok : Artifact → Bool) : List Artifact → List Artifact × Option Artifact
  | [] => ([], none)
  | a :: rest =>
    if ok a then
      let p := writeAll ok rest
      (a :: p.1, p.2)
    else ([], some a)

/-- The observable result of one `logIteration` call (src/cli.js lines
675-682) under write-failure environment `ok`. -/
def logIterationRun (ok : Artifact → Bool) (d : IterData) : List Artifact × Option Artifact :=
  writeAll ok (attemptedArtifacts d)

/-- Decimal digit to character. -/
def digitChar : Nat → Char
  | 0 => '0'
  | 1 => '1'
  | 2 => '2'
  | 3 => '3'
  | 4 => '4'
  | 5 => '5'
  | 6 => '6'
  | 7 => '7'
  | 8 => '8'
  | 9 => '9'
  | _ => '?'

/-- Fuel-based decimal digits of a positive natural number. -/
def natDigitsAux : Nat → Nat → List Char
  | 0, _ => []
  | _ + 1, 0 => []
  | fuel + 1, n + 1 => natDigitsAux fuel ((n + 1) / 10) ++ [digitChar ((n + 1) % 10)]

/-- JS `String(i)` for the non-negative integer loop index `i`. -/
def natToString (n : Nat) : String :=
  if n = 0 then "0" else ⟨natDigitsAux n n⟩

/-- JS `text.split(/\r?\n/)` on a character list: each `\r\n` or lone `\n`
separates lines; a lone `\r` does not. -/
def splitRN : List Char → List (List Char)
  | [] => [[]]
  | '\r' :: '\n' :: rest => [] :: splitRN rest
  | '\n' :: rest => [] :: splitRN rest
  | c :: rest =>
    match splitRN rest with
    | [] => [[c]]
    | l :: ls => (c :: l) :: ls

/-- src/cli.js lines 168-173: first non-blank line of the transcript, trimmed
and truncated to 72 characters; `"updates"` if the text is falsy or has no
non-blank line. -/
def firstLineSummary (text : String) : String :=
  if text = "" then "updates"
  else
    match (splitRN text.data).find? (fun l => !(jsTrimL l).isEmpty) with
    | none => "updates"
    | some line => ⟨(jsTrimL line).take 72⟩

/-- ECMAScript GetSubstitution for a string pattern with no capture groups:
in the replacement text, `$$` yields `$`, `$&` the matched text, a
backquote after `$` the portion before the match, a quote after `$` the
portion after the match; any other `$` is kept literally. -/
def substDollar (matched pre post : List Char) : List Char → List Char
  | [] => []
  | [c] => [c]
  | c :: d :: rest =>
    if c = dollarChar then
      if d = dollarChar then dollarChar :: substDollar matched pre post rest
      else if d = '&' then matched ++ substDollar matched pre post rest
      else if d = backquoteChar then pre ++ substDollar matched pre post rest
      else if d = singleQuoteChar then post ++ substDollar matched pre post rest
      else c :: substDollar matched pre post (d :: rest)
    else c :: substDollar matched pre post (d :: rest)

/-- JS `s.replace(pat, rep)` with a string pattern: replace the first
occurrence of `pat`, applying the GetSubstitution rules to `rep`. -/
def jsReplaceL (s pat rep : List Char) : List Char :=
  match splitFirst pat s with
  | none => s
  | some (pre, post) => pre ++ substDollar pat pre post rep ++ post

/-- Modelled from the claim wording: substitution that inserts the
replacement text verbatim at the first occurrence of the placeholder,
with no dollar-escape processing. Used to compare the code's substitution
against the claimed one. -/
def replaceFirstPlain (s pat rep : List Char) : List Char :=
  match splitFirst pat s with
  | none => s
  | some (pre, post) => pre ++ rep ++ post

/-- The `{n}` placeholder. -/
def nPat : List Char := "{n}".data

/-- The `{summary}` placeholder. -/
def sPat : List Char := "{summary}".data

/-- src/cli.js lines 1029-1031: `config.git.commitMessageTemplate
.replace('{n}', i).replace('{summary}', summary)`. -/
def commitMessage (tpl : String) (i : Nat) (summary : String) : String :=
  ⟨jsReplaceL (jsReplaceL tpl.data nPat (natToString i).data) sPat summary.data⟩

/-- The commit message of iteration `i`, src/cli.js lines 1028-1031:
the summary is `firstLineSummary(output)`. -/
def iterationCommitMessage (tpl : String) (i : Nat) (transcript : String) : String :=
  commitMessage tpl i (firstLineSummary transcript)

/-- Modelled from the claim wording: the commit message with plain
(verbatim) first-occurrence substitution of both placeholders. -/
def specCommitMessage (tpl : String) (i : Nat) (summary : String) : String :=
  ⟨replaceFirstPlain (replaceFirstPlain tpl.data nPat (natToString i).data) sPat summary.data⟩

/-- A baseline configuration for concrete witnesses: default values of
DEFAULT_CONFIG with `maxLoops := 3` and every stop condition disabled. -/
def cfgBase : LoopConfig :=
  { maxLoops := 3
    stopOnPromise := false
    stopOnTestsPass := false
    stopOnNoDiff := false
    ignoreUntrackedForNoDiff := true
    completionKey := "PROMISE"
    testCommand := ""
    commitEachIteration := true
    stageAll := false
    allowEmptyCommit := false
    commitMessageTemplate := "codex-loop: iter {n} - {summary}"
    commitLogs := false }

/-- `cfgBase` with the completion stop condition enabled. -/
def cfgPromise : LoopConfig := { cfgBase with stopOnPromise := true }

/-- `cfgBase` with the tests stop condition enabled and a test command. -/
def cfgTests : LoopConfig := { cfgBase with stopOnTestsPass := true, testCommand := "npm test" }

/-- `cfgBase` with the no-diff stop condition enabled. -/
def cfgNoDiffOn : LoopConfig := { cfgBase with stopOnNoDiff := true }

/-- `cfgBase` with `ignoreUntrackedForNoDiff` turned off; it differs from
`cfgBase` only in that flag. -/
def cfgUnoOff : LoopConfig := { cfgBase with ignoreUntrackedForNoDiff := false }

/-- A quiet environment: empty transcript, failing tests, clean status. -/
def envQuiet : Env :=
  { output := fun _ => ""
    exitStatus := fun _ => some 0
    testStatus := fun _ => some 1
    status := fun _ _ => "M file.txt" }

/-- Environment whose agent always emits the completion marker. -/
def envPromise : Env := { envQuiet with output := fun _ => "PROMISE: true" }

/-- Environment whose test command always exits 0. -/
def envPass : Env := { envQuiet with testStatus := fun _ => some 0 }

/-- Environment whose `git status` output is a single space: non-empty text
that trims to the empty string. -/
def envSpace : Env := { envQuiet with status := fun _ _ => " " }

/-- A write environment in which only the transcript (output.txt) write
fails; every other artifact write would succeed. -/
def failOutputWrite : Artifact → Bool
  | Artifact.outputA => false
  | _ => true

/-- A write environment in which every write succeeds. -/
def allWritesOk : Artifact → Bool := fun _ => true

/-- Checkpoint data of an iteration whose agent produced a transcript and a
diff (prompt absent, as in the in-loop call at src/cli.js line 990). -/
def dEx : IterData :=
  { prompt := "", output := "agent transcript", diff := "diff text", hasMeta := true }

-- ===== Theorems =====

theorem isPrefixOf_eq_true_iff (pat l : List Char) : pat.isPrefixOf l = true ↔ pat <+: l :=
  List.isPrefixOf_iff_prefix

theorem splitFirst_isSome_iff (pat : List Char) :
    ∀ l : List Char, (splitFirst pat l).isSome = true ↔ pat <:+: l := by
  intro l
  induction l with
  | nil =>
    simp only [splitFirst]
    constructor
    · intro h
      by_cases hp : pat = []
      · subst hp; exact List.infix_refl _
      · simp [hp] at h
    · intro h
      have := List.eq_nil_of_infix_nil h
      simp [this]
  | cons c rest ih =>
    simp only [splitFirst]
    by_cases hp : pat.isPrefixOf (c :: rest) = true
    · simp only [hp, if_true, Option.isSome_some, true_iff]
      exact ((isPrefixOf_eq_true_iff _ _).mp hp).isInfix
    · have hp' : ¬ pat <+: (c :: rest) := fun h => hp ((isPrefixOf_eq_true_iff _ _).mpr h)
      simp only [Bool.not_eq_true] at hp
      simp only [hp, if_false]
      constructor
      · intro h
        rcases hmatch : splitFirst pat rest with _ | ⟨pre, post⟩
        · simp [hmatch] at h
        · have : pat <:+: rest := (ih).mp (by simp [hmatch])
          exact List.infix_cons_iff.mpr (Or.inr this)
      · intro h
        rcases List.infix_cons_iff.mp h with h1 | h1
        · exact absurd h1 hp'
        · have := ih.mpr h1
          rcases hmatch : splitFirst pat rest with _ | ⟨pre, post⟩
          · rw [hmatch] at this; simp at this
          · simp [hmatch]

/-- C1: For every transcript and completion key, `parsePromise` returns true
iff the transcript contains the literal substring `key ++ ": true"`
(with the default key, `"PROMISE: true"`), regardless of surrounding text. -/
theorem claim1_completionFound_iff_substring (output key : String) :
    parsePromise output key = true ↔ (key ++ ": true").data <:+: output.data := by
  unfold parsePromise
  by_cases h : output = ""
  · subst h
    simp only [if_true, Bool.false_eq_true, false_iff]
    intro hinf
    have : (key ++ ": true").data = [] := List.eq_nil_of_infix_nil hinf
    rw [String.data_append] at this
    have := List.append_eq_nil.mp this
    simp [String.data] at this
  · simp only [h, if_false]
    unfold jsIncludes
    exact splitFirst_isSome_iff _ _

theorem claim1_witness :
    parsePromise "noise before PROMISE: true noise after" "PROMISE" = true :=
  (claim1_completionFound_iff_substring _ "PROMISE").mpr (by decide)

/-- C2: The loop stops at iteration `i` (reporting completion) iff at least
one of the three signals is true: the completion marker was found with the
completion condition enabled, or the test command passed, or the no-diff
condition is enabled with an empty (trimmed) status; with no priority among
them, stopping produces the completed outcome, continuing proceeds to
iteration `i + 1`, and the decision depends only on the current iteration's
data. -/
theorem claim2_stop_decision_iff_any_signal (cfg : LoopConfig) (env : Env) (i : Nat) :
    (iterStops cfg env i = true ↔
      ((cfg.stopOnPromise = true ∧ parsePromise (env.output i) cfg.completionKey = true) ∨
       (testsEvaluated cfg = true ∧ env.testStatus i = some 0) ∨
       (cfg.stopOnNoDiff = true ∧ trimIsEmpty (env.status i (noDiffStatusArgs cfg)) = true)))
    ∧ (∀ r : Nat,
        runLoopFrom cfg env i (r + 1) =
          if iterStops cfg env i then (1, RunOutcome.completed)
          else ((runLoopFrom cfg env (i + 1) r).1 + 1, (runLoopFrom cfg env (i + 1) r).2))
    ∧ (∀ env2 : Env, env.output i = env2.output i → env.testStatus i = env2.testStatus i →
        env.status i = env2.status i → iterStops cfg env i = iterStops cfg env2 i) := by
  refine ⟨?_, ?_, ?_⟩
  · by_cases hT : testsEvaluated cfg <;> by_cases hN : cfg.stopOnNoDiff <;>
      simp [iterStops, promiseSignal, testsSignal, noDiffSignal, hT, hN, beq_iff_eq,
        and_comm, or_assoc]
  · intro r
    rfl
  · intro env2 h1 h2 h3
    simp only [iterStops, promiseSignal, testsSignal, noDiffSignal, h1, h2, h3]

theorem claim2_witness : iterStops cfgPromise envPromise 1 = true :=
  (claim2_stop_decision_iff_any_signal cfgPromise envPromise 1).1.mpr
    (Or.inl ⟨rfl, by decide⟩)

theorem runLoopFrom_no_stop (cfg : LoopConfig) (env : Env) :
    ∀ (r i : Nat), (∀ j, i ≤ j → j < i + r → iterStops cfg env j = false) →
      runLoopFrom cfg env i r = (r, RunOutcome.iterationLimit)
  | 0, _, _ => rfl
  | r + 1, i, h => by
    have h0 : iterStops cfg env i = false := h i (Nat.le_refl i) (by omega)
    have hrec := runLoopFrom_no_stop cfg env r (i + 1)
      (fun j hj1 hj2 => h j (by omega) (by omega))
    simp [runLoopFrom, h0, hrec]

/-- C3: For every positive iteration budget `N`, if no enabled stop condition
ever fires in iterations `1..N`, the loop performs exactly `N` agent
invocations and ends with the iteration-limit outcome (a normal return, not
an error). -/
theorem claim3_iteration_limit (cfg : LoopConfig) (env : Env) (N : Nat)
    (hN : cfg.maxLoops = N) (hpos : 0 < N)
    (h : ∀ i, 1 ≤ i → i ≤ N → iterStops cfg env i = false) :
    runLoop cfg env = (N, RunOutcome.iterationLimit) := by
  unfold runLoop
  rw [hN]
  exact runLoopFrom_no_stop cfg env N 1 (fun j hj1 hj2 => h j hj1 (by omega))

theorem claim3_witness : runLoop cfgBase envQuiet = (3, RunOutcome.iterationLimit) :=
  claim3_iteration_limit cfgBase envQuiet 3 rfl (by decide)
    (fun i _ _ => by
      simp [iterStops, promiseSignal, testsSignal, noDiffSignal, testsEvaluated, cfgBase])

/-- C4: If the tests-pass condition is disabled or the test command is empty,
the test command is not evaluated, the spec-level `testsPassed` value is
null, and the signal never triggers a stop; if enabled and configured, the
signal is true iff the command's exit status is zero; a command that fails
to execute (null status) yields a false signal rather than an abort. -/
theorem claim4_testsPassed_signal (cfg : LoopConfig) (env : Env) (i : Nat) :
    (testsEvaluated cfg = false ↔ (cfg.stopOnTestsPass = false ∨ cfg.testCommand = ""))
    ∧ (testsEvaluated cfg = false →
        specTestsPassed cfg env i = none ∧ testsSignal cfg env i = false)
    ∧ (testsEvaluated cfg = true →
        (testsSignal cfg env i = true ↔ env.testStatus i = some 0))
    ∧ (env.testStatus i = none → testsSignal cfg env i = false)
    ∧ (testsSignal cfg env i = true ↔ specTestsPassed cfg env i = some true) := by
  refine ⟨?_, ?_, ?_, ?_, ?_⟩
  · cases hS : cfg.stopOnTestsPass <;> simp [testsEvaluated, hS, beq_iff_eq]
  · intro h
    simp [specTestsPassed, testsSignal, h]
  · intro h
    simp [testsSignal, h, beq_iff_eq]
  · intro h
    by_cases hT : testsEvaluated cfg <;> simp [testsSignal, hT, h]
  · by_cases hT : testsEvaluated cfg <;> simp [testsSignal, specTestsPassed, hT]

theorem claim4_witness : testsSignal cfgTests envPass 1 = true :=
  ((claim4_testsPassed_signal cfgTests envPass 1).2.2.1 (by decide)).mpr rfl

theorem jsTrimL_eq_nil_iff (l : List Char) :
    jsTrimL l = [] ↔ ∀ c ∈ l, isJsWhitespace c = true := by
  unfold jsTrimL
  rw [List.reverse_eq_nil_iff, List.dropWhile_eq_nil_iff]
  constructor
  · intro h c hc
    by_cases hmem : c ∈ l.dropWhile isJsWhitespace
    · exact h c (List.mem_reverse.mpr hmem)
    · have hsplit := List.takeWhile_append_dropWhile (p := isJsWhitespace) (l := l)
      rw [← hsplit] at hc
      rcases List.mem_append.mp hc with h1 | h1
      · exact List.mem_takeWhile_imp h1
      · exact absurd h1 hmem
  · intro h c hc
    exact h c ((List.dropWhile_sublist _).subset (List.mem_reverse.mp hc))

/-- C5 counterexample: with the no-diff condition enabled and a status output
of a single space, `noDiff` is true although the status output is not empty:
the code tests emptiness only after `trim()`. -/
theorem claim5_counterexample :
    noDiffSignal cfgNoDiffOn envSpace 1 = true
    ∧ envSpace.status 1 (noDiffStatusArgs cfgNoDiffOn) ≠ "" :=
  ⟨by decide, by decide⟩

/-- C5 (amended): if the no-diff condition is disabled the signal is false;
if enabled, the status query carries `-uno` exactly when
`ignoreUntrackedForNoDiff` is set, and the signal is true iff the (filtered)
status output is empty after trimming, i.e. consists only of whitespace. -/
theorem claim5_noDiff_amended (cfg : LoopConfig) (env : Env) (i : Nat) :
    (cfg.stopOnNoDiff = false → noDiffSignal cfg env i = false)
    ∧ ("-uno" ∈ noDiffStatusArgs cfg ↔ cfg.ignoreUntrackedForNoDiff = true)
    ∧ (cfg.stopOnNoDiff = true →
        (noDiffSignal cfg env i = true ↔
          ∀ c ∈ (env.status i (noDiffStatusArgs cfg)).data, isJsWhitespace c = true)) := by
  refine ⟨?_, ?_, ?_⟩
  · intro h
    simp [noDiffSignal, h]
  · by_cases h : cfg.ignoreUntrackedForNoDiff <;> simp [noDiffStatusArgs, h]
  · intro h
    simp [noDiffSignal, h, trimIsEmpty, List.isEmpty_iff, jsTrimL_eq_nil_iff]

theorem claim5_witness : noDiffSignal cfgBase envQuiet 1 = false :=
  (claim5_noDiff_amended cfgBase envQuiet 1).1 rfl

/-- C6 counterexample: the commit-gating status query does depend on
`ignoreUntrackedForNoDiff` — with the flag set (as in `cfgBase`) it passes
`-uno`, excluding untracked files, and with the flag cleared it does not —
refuting the claimed always-include-untracked commit path. -/
theorem claim6_counterexample :
    commitStatusArgs cfgBase = ["status", "--porcelain", "-uno"]
    ∧ commitStatusArgs cfgUnoOff = ["status", "--porcelain"]
    ∧ commitStatusArgs cfgBase ≠ commitStatusArgs cfgUnoOff :=
  ⟨rfl, rfl, by decide⟩

/-- C6 (amended): the two status queries are symmetric, not asymmetric — the
commit-path query uses exactly the same arguments as the no-diff query, each
appending `-uno` precisely when `ignoreUntrackedForNoDiff` is set. -/
theorem claim6_status_queries_symmetric (cfg : LoopConfig) :
    commitStatusArgs cfg = noDiffStatusArgs cfg
    ∧ ("-uno" ∈ commitStatusArgs cfg ↔ cfg.ignoreUntrackedForNoDiff = true) := by
  refine ⟨rfl, ?_⟩
  by_cases h : cfg.ignoreUntrackedForNoDiff <;> simp [commitStatusArgs, h]

theorem claim6_witness : commitStatusArgs cfgBase = noDiffStatusArgs cfgBase :=
  (claim6_status_queries_symmetric cfgBase).1

/-- C7: in every iteration — whatever the configuration and however the agent
invocation went — the checkpoint write is the third event, directly after
invoking the agent and capturing the diff; it occurs exactly once and before
every test run, status query, stage, commit and run-state write; and the
trace shape does not depend on the agent's output or exit status. -/
theorem claim7_checkpoint_first (cfg : LoopConfig) (env : Env) (i : Nat) :
    ∃ rest : List LoopEvent,
      iterTrace cfg env i =
        LoopEvent.invokeAgent i :: LoopEvent.captureDiff i :: LoopEvent.checkpoint i :: rest
      ∧ LoopEvent.checkpoint i ∉ rest
      ∧ LoopEvent.persistState i ∈ rest
      ∧ (∀ env2 : Env, env2.status = env.status → iterTrace cfg env2 i = iterTrace cfg env i) := by
  refine ⟨_, rfl, ?_, ?_, ?_⟩
  · by_cases h1 : testsEvaluated cfg <;> by_cases h2 : cfg.stopOnNoDiff <;>
      by_cases h3 : cfg.commitEachIteration <;> by_cases h4 : commitGate cfg env i <;>
      simp [h1, h2, h3, h4]
  · by_cases h1 : testsEvaluated cfg <;> by_cases h2 : cfg.stopOnNoDiff <;>
      by_cases h3 : cfg.commitEachIteration <;> by_cases h4 : commitGate cfg env i <;>
      simp [h1, h2, h3, h4]
  · intro env2 h
    simp [iterTrace, commitGate, h]

theorem claim7_witness :
    LoopEvent.persistState 1 ∈ iterTrace cfgBase envQuiet 1 := by
  obtain ⟨rest, heq, _, hmem, _⟩ := claim7_checkpoint_first cfgBase envQuiet 1
  rw [heq]
  exact List.mem_cons_of_mem _ (List.mem_cons_of_mem _ (List.mem_cons_of_mem _ hmem))

theorem writeAll_spec (ok : Artifact → Bool) :
    ∀ l : List Artifact, writeAll ok l = (l.takeWhile ok, (l.dropWhile ok).head?)
  | [] => rfl
  | a :: rest => by
    by_cases h : ok a
    · simp [writeAll, h, List.takeWhile_cons, List.dropWhile_cons, writeAll_spec ok rest]
    · simp [writeAll, h, List.takeWhile_cons, List.dropWhile_cons]

/-- C8 counterexample: with checkpoint data carrying a transcript, a diff and
metadata, and a write environment in which only the transcript write fails,
`logIteration` throws that failure (it is not contained) and the diff write —
attempted and perfectly writable — is suppressed. -/
theorem claim8_counterexample :
    (logIterationRun failOutputWrite dEx).2 = some Artifact.outputA
    ∧ Artifact.diffA ∉ (logIterationRun failOutputWrite dEx).1
    ∧ failOutputWrite Artifact.diffA = true
    ∧ Artifact.diffA ∈ attemptedArtifacts dEx := by
  decide

/-- C8 (amended): `logIteration` attempts the artifact writes strictly in
order (prompt, transcript, diff, metadata), skipping falsy (empty) fields;
the artifacts written are exactly the longest successful prefix, the first
failing write is thrown past the call (there is no per-artifact error
handling), and only when every attempted write succeeds are all artifacts
written with a normal return. -/
theorem claim8_writer_amended (ok : Artifact → Bool) (d : IterData) :
    (logIterationRun ok d).1 = (attemptedArtifacts d).takeWhile ok
    ∧ (logIterationRun ok d).2 = ((attemptedArtifacts d).dropWhile ok).head?
    ∧ ((∀ a ∈ attemptedArtifacts d, ok a = true) →
        logIterationRun ok d = (attemptedArtifacts d, none)) := by
  have h := writeAll_spec ok (attemptedArtifacts d)
  refine ⟨by rw [logIterationRun, h], by rw [logIterationRun, h], ?_⟩
  intro hall
  have h1 : (attemptedArtifacts d).takeWhile ok = attemptedArtifacts d :=
    List.takeWhile_eq_self_iff.mpr hall
  have h2 : (attemptedArtifacts d).dropWhile ok = [] :=
    List.dropWhile_eq_nil_iff.mpr hall
  rw [logIterationRun, h, h1, h2]
  rfl

theorem claim8_witness : logIterationRun allWritesOk dEx = (attemptedArtifacts dEx, none) :=
  (claim8_writer_amended allWritesOk dEx).2.2 (by decide)

theorem substDollar_no_dollar (matched pre post : List Char) :
    ∀ rep : List Char, dollarChar ∉ rep → substDollar matched pre post rep = rep
  | [], _ => rfl
  | [_], _ => rfl
  | c :: d :: rest, h => by
    have hc : ¬ c = dollarChar := fun e => h (e ▸ List.mem_cons_self c (d :: rest))
    have htail : dollarChar ∉ d :: rest := fun hm => h (List.mem_cons_of_mem c hm)
    simp only [substDollar, if_neg hc]
    rw [substDollar_no_dollar matched pre post (d :: rest) htail]

theorem digitChar_ne_dollar (d : Nat) : digitChar d ≠ dollarChar := by
  unfold digitChar
  split <;> decide

theorem dollar_not_mem_natDigitsAux : ∀ fuel n, dollarChar ∉ natDigitsAux fuel n
  | 0, _ => by simp [natDigitsAux]
  | _ + 1, 0 => by simp [natDigitsAux]
  | fuel + 1, n + 1 => by
    simp only [natDigitsAux, List.mem_append, List.mem_singleton]
    push_neg
    exact ⟨dollar_not_mem_natDigitsAux fuel ((n + 1) / 10), (digitChar_ne_dollar _).symm⟩

theorem dollar_not_mem_natToString (n : Nat) : dollarChar ∉ (natToString n).data := by
  unfold natToString
  by_cases h : n = 0
  · rw [if_pos h]
    decide
  · rw [if_neg h]
    exact dollar_not_mem_natDigitsAux n n

theorem jsReplaceL_no_dollar (s pat rep : List Char) (h : dollarChar ∉ rep) :
    jsReplaceL s pat rep = replaceFirstPlain s pat rep := by
  unfold jsReplaceL replaceFirstPlain
  cases hsp : splitFirst pat s with
  | none => rfl
  | some p =>
    obtain ⟨pre, post⟩ := p
    show pre ++ substDollar pat pre post rep ++ post = pre ++ rep ++ post
    rw [substDollar_no_dollar pat pre post rep h]

theorem commitMessage_eq_spec (tpl : String) (i : Nat) (s : String)
    (h : dollarChar ∉ s.data) : commitMessage tpl i s = specCommitMessage tpl i s := by
  unfold commitMessage specCommitMessage
  rw [jsReplaceL_no_dollar _ _ _ (dollar_not_mem_natToString i), jsReplaceL_no_dollar _ _ _ h]

/-- C9 counterexample: with template `"iter {n} - {summary}"` and a transcript
whose first line is `"$&"`, the commit message is `"iter 1 - {summary}"` — the
JS replacement-pattern `$&` in the summary is expanded to the matched
placeholder text — and not the claimed template-with-summary-substituted
message `"iter 1 - $&"`. -/
theorem claim9_counterexample :
    iterationCommitMessage "iter {n} - {summary}" 1 "$&" = "iter 1 - {summary}"
    ∧ iterationCommitMessage "iter {n} - {summary}" 1 "$&" ≠ "iter 1 - $&" := by
  constructor
  · decide
  · decide

/-- C9 (amended): when the derived summary contains no dollar character, the
commit message is the template with the iteration index substituted at the
first `{n}` and the summary substituted at the first `{summary}`; the summary
is the transcript's first non-blank line, trimmed, truncated to at most 72
characters (exactly 72 for a 100-character trimmed line), with fallback
`"updates"` for an empty transcript; summaries containing JS replacement
patterns (`$$`, `$&`, dollar-backquote, dollar-quote) are instead expanded
per `String.replace`. -/
theorem claim9_commit_message_amended (tpl : String) (i : Nat) (t : String)
    (h : dollarChar ∉ (firstLineSummary t).data) :
    iterationCommitMessage tpl i t = specCommitMessage tpl i (firstLineSummary t)
    ∧ (firstLineSummary t).data.length ≤ 72
    ∧ firstLineSummary "" = "updates"
    ∧ (∀ line : List Char,
        (splitRN t.data).find? (fun l => !(jsTrimL l).isEmpty) = some line →
          (firstLineSummary t).data = (jsTrimL line).take 72
          ∧ ((jsTrimL line).length = 100 → (firstLineSummary t).data.length = 72)) := by
  refine ⟨commitMessage_eq_spec tpl i (firstLineSummary t) h, ?_, rfl, ?_⟩
  · unfold firstLineSummary
    by_cases ht : t = ""
    · rw [if_pos ht]
      decide
    · rw [if_neg ht]
      cases hf : (splitRN t.data).find? (fun l => !(jsTrimL l).isEmpty) with
      | none => decide
      | some line =>
        show ((jsTrimL line).take 72).length ≤ 72
        rw [List.length_take]
        omega
  · intro line hline
    have ht : t ≠ "" := by
      intro he
      subst he
      have : ((splitRN ("" : String).data).find? (fun l => !(jsTrimL l).isEmpty)) =
          (none : Option (List Char)) := rfl
      rw [this] at hline
      exact Option.noConfusion hline
    have hdata : (firstLineSummary t).data = (jsTrimL line).take 72 := by
      unfold firstLineSummary
      rw [if_neg ht, hline]
    refine ⟨hdata, ?_⟩
    intro h100
    rw [hdata, List.length_take, h100]
    decide

theorem claim9_witness :
    (firstLineSummary "Refactored the parser module to support streaming input").data.length
      ≤ 72 :=
  (claim9_commit_message_amended "iter {n} - {summary}" 5
    "Refactored the parser module to support streaming input" (by decide)).2.1

theorem splitFirst_cons_pos (pat : List Char) (c : Char) (rest : List Char)
    (h : pat.isPrefixOf (c :: rest) = true) :
    splitFirst pat (c :: rest) = some ([], (c :: rest).drop pat.length) := by
  simp [splitFirst, h]

theorem splitFirst_cons_neg (pat : List Char) (c : Char) (rest : List Char)
    (h : ¬ pat.isPrefixOf (c :: rest) = true) :
    splitFirst pat (c :: rest) =
      match splitFirst pat rest with
      | some (pre, post) => some (c :: pre, post)
      | none => none := by
  simp only [splitFirst]
  rw [if_neg h]

theorem splitFirst_append (pat : List Char) :
    ∀ (a : List Char) (b : List Char), pat ≠ [] →
      (∀ j, j < a.length → ¬ pat.isPrefixOf ((a ++ pat ++ b).drop j) = true) →
      splitFirst pat (a ++ pat ++ b) = some (a, b)
  | [], b, hpat, _ => by
    cases hp : pat with
    | nil => exact absurd hp hpat
    | cons p pt =>
      subst hp
      have hpre : (p :: pt).isPrefixOf (p :: (pt ++ b)) = true := by
        rw [← List.cons_append]
        exact (isPrefixOf_eq_true_iff _ _).mpr (List.prefix_append _ _)
      show splitFirst (p :: pt) (p :: (pt ++ b)) = some ([], b)
      rw [splitFirst_cons_pos _ _ _ hpre]
      rw [show p :: (pt ++ b) = (p :: pt) ++ b from (List.cons_append p pt b).symm]
      rw [List.drop_left]
  | x :: a2, b, hpat, h => by
    have h0 : ¬ pat.isPrefixOf (x :: (a2 ++ pat ++ b)) = true := by
      have := h 0 (by simp)
      simpa using this
    show splitFirst pat (x :: (a2 ++ pat ++ b)) = some (x :: a2, b)
    rw [splitFirst_cons_neg _ _ _ h0]
    have hrec := splitFirst_append pat a2 b hpat (fun j hj => by
      have := h (j + 1) (by simpa using Nat.succ_lt_succ hj)
      simpa using this)
    rw [hrec]

theorem splitFirst_eq_none_iff (pat l : List Char) :
    splitFirst pat l = none ↔ ¬ pat <:+: l := by
  rw [← splitFirst_isSome_iff]
  cases splitFirst pat l <;> simp

/-- C10: commit-message template substitution replaces only the first
occurrence of each placeholder: if the template is `a ++ "{n}" ++ b` with the
first `{n}` occurrence at the end of `a` and `{n}` occurring again inside
`b` (and `{summary}` absent so the second replace is inert), the message is
`a ++ String(i) ++ b` and the later `{n}` survives literally; symmetrically
for a template `a2 ++ "{summary}" ++ b2` with no `{n}`. -/
theorem claim10_first_occurrence_only (a b : List Char) (i : Nat) (s : String)
    (h1 : ∀ j, j < a.length → ¬ nPat.isPrefixOf ((a ++ nPat ++ b).drop j) = true)
    (h2 : ¬ sPat <:+: (a ++ (natToString i).data ++ b))
    (h3 : nPat <:+: b) :
    commitMessage ⟨a ++ nPat ++ b⟩ i s = ⟨a ++ (natToString i).data ++ b⟩
    ∧ nPat <:+: (commitMessage ⟨a ++ nPat ++ b⟩ i s).data
    ∧ (∀ a2 b2 : List Char,
        ¬ nPat <:+: (a2 ++ sPat ++ b2) →
        (∀ j, j < a2.length → ¬ sPat.isPrefixOf ((a2 ++ sPat ++ b2).drop j) = true) →
        dollarChar ∉ s.data →
        sPat <:+: b2 →
        commitMessage ⟨a2 ++ sPat ++ b2⟩ i s = ⟨a2 ++ s.data ++ b2⟩
        ∧ sPat <:+: (commitMessage ⟨a2 ++ sPat ++ b2⟩ i s).data) := by
  have e1 : jsReplaceL (a ++ nPat ++ b) nPat (natToString i).data =
      a ++ (natToString i).data ++ b := by
    unfold jsReplaceL
    rw [splitFirst_append nPat a b (by decide) h1]
    show a ++ substDollar nPat a b (natToString i).data ++ b = _
    rw [substDollar_no_dollar nPat a b _ (dollar_not_mem_natToString i)]
  have e2 : jsReplaceL (a ++ (natToString i).data ++ b) sPat s.data =
      a ++ (natToString i).data ++ b := by
    unfold jsReplaceL
    rw [(splitFirst_eq_none_iff sPat _).mpr h2]
  have hmain : commitMessage ⟨a ++ nPat ++ b⟩ i s = ⟨a ++ (natToString i).data ++ b⟩ := by
    show String.mk
        (jsReplaceL (jsReplaceL (a ++ nPat ++ b) nPat (natToString i).data) sPat s.data) = _
    rw [e1, e2]
  refine ⟨hmain, ?_, ?_⟩
  · rw [hmain]
    exact h3.trans (List.suffix_append (a ++ (natToString i).data) b).isInfix
  · intro a2 b2 hn hs hd hsb
    have f1 : jsReplaceL (a2 ++ sPat ++ b2) nPat (natToString i).data =
        a2 ++ sPat ++ b2 := by
      unfold jsReplaceL
      rw [(splitFirst_eq_none_iff nPat _).mpr hn]
    have f2 : jsReplaceL (a2 ++ sPat ++ b2) sPat s.data = a2 ++ s.data ++ b2 := by
      unfold jsReplaceL
      rw [splitFirst_append sPat a2 b2 (by decide) hs]
      show a2 ++ substDollar sPat a2 b2 s.data ++ b2 = _
      rw [substDollar_no_dollar sPat a2 b2 _ hd]
    have hm2 : commitMessage ⟨a2 ++ sPat ++ b2⟩ i s = ⟨a2 ++ s.data ++ b2⟩ := by
      show String.mk
          (jsReplaceL (jsReplaceL (a2 ++ sPat ++ b2) nPat (natToString i).data) sPat s.data) = _
      rw [f1, f2]
    refine ⟨hm2, ?_⟩
    rw [hm2]
    exact hsb.trans (List.suffix_append (a2 ++ s.data) b2).isInfix

theorem claim10_witness :
    commitMessage ⟨"a".data ++ nPat ++ "b{n}c".data⟩ 7 "s" =
      ⟨"a".data ++ (natToString 7).data ++ "b{n}c".data⟩ :=
  (claim10_first_occurrence_only "a".data "b{n}c".data 7 "s"
    (by decide) (by decide) (by decide)).1
